import Mathlib

/-!
# CineLog (CINETRACK ELITE) — shallow embedding of `src/script.js`

This file embeds the core state logic of the single-file React app
`src/script.js` into Lean 4 and proves/refutes the specified properties.

Modelling conventions:
* JS strings are `String`; a "missing" or empty date is `""` (JS `undefined`,
  `null` and `""` are all falsy, and every use in the source goes through
  `||` / truthiness tests, so collapsing them to `""` is faithful).
* `planAt` (a `Date.now()` millisecond timestamp or `null`) is `Option Nat`;
  JS `x || y` on it treats both `null` and `0` as falsy (`numOr`).
* `Date.now()` and `todayISO()` are impure; each operation that reads them
  takes the corresponding value (`now : Nat`, `today : String`) as an
  explicit parameter.
* `localStorage` + `JSON.parse` round-tripping of plain records is modelled
  at the point of use (see `loadItems` and the round-trip theorem).
* `Array.prototype.sort` with a consistent comparator is modelled by the
  stable `List.mergeSort` with `le a b := comparator a b ≤ 0`.
-/

namespace CineLog

/-- JS `a || b` for strings: `""` is the only falsy string. -/
def strOr (a b : String) : String := if a = "" then b else a

/-- JS `a || b` for a nullable numeric timestamp: both `null` and `0` are falsy. -/
def numOr (a : Option Nat) (b : Option Nat) : Option Nat :=
  match a with
  | some n => if n = 0 then b else some n
  | none => b

/-- The three fields `deriveStatus` reads from its (duck-typed) argument. -/
structure StatusFields where
  planToWatch : Bool
  startDate : String
  endDate : String
deriving Repr, DecidableEq

/-- `deriveStatus` from `src/script.js` lines 51–56:
`planToWatch → 'planned'; endDate truthy → 'finished'; startDate truthy →
'watching'; else 'queued'`. -/
def deriveStatus (data : StatusFields) : String :=
  if data.planToWatch then "planned"
  else if data.endDate ≠ "" then "finished"
  else if data.startDate ≠ "" then "watching"
  else "queued"

/-- One watch entry, as stored in the `items` state and persisted to
`localStorage`. Records parsed from storage may lack fields; a missing
string field reads as `""`, a missing boolean as `false`, a missing
nullable timestamp as `none` — the falsy values JS `||`/`Boolean` coercion
gives them, which is all `normalizeItem` inspects. -/
structure Entry where
  id : Nat
  title : String
  startDate : String
  endDate : String
  rating : Nat
  notes : String
  genres : List String
  status : String
  planToWatch : Bool
  planAt : Option Nat
  isWatched : Bool
deriving Repr, DecidableEq

/-- The status-relevant fields of an entry. -/
def Entry.fields (e : Entry) : StatusFields :=
  ⟨e.planToWatch, e.startDate, e.endDate⟩

/-- `normalizeItem` from `src/script.js` lines 38–49, applied to every record
at load time. `now` stands for `Date.now()`. Note that when `planToWatch` is
false it keeps a stored truthy `item.status` as-is rather than re-deriving it. -/
def normalizeItem (now : Nat) (item : Entry) : Entry :=
  let planToWatch := item.planToWatch || (item.status == "planned")
  let startDate := strOr item.startDate ""
  let endDate := strOr item.endDate ""
  let planAt := numOr item.planAt (if planToWatch then some now else none)
  let status :=
    if planToWatch then "planned"
    else strOr item.status
      (if item.isWatched then "finished"
       else if item.startDate ≠ "" then "watching"
       else "queued")
  { item with
    planToWatch := planToWatch
    startDate := startDate
    endDate := endDate
    planAt := planAt
    status := status
    isWatched := status == "finished" }

/-- The form state (`formData`): an entry minus `id`/`isWatched`. -/
structure FormData where
  title : String
  startDate : String
  endDate : String
  rating : Nat
  notes : String
  status : String
  genres : List String
  planToWatch : Bool
  planAt : Option Nat
deriving Repr, DecidableEq

/-- The status-relevant fields of the form. -/
def FormData.fields (f : FormData) : StatusFields :=
  ⟨f.planToWatch, f.startDate, f.endDate⟩

/-- The entry built by `handleSave` (lines 110–123): status derived from the
form, `planAt` kept/stamped only when planning, `isWatched` derived,
`rating` numeric (already numeric in the model). -/
def mkEntry (now : Nat) (f : FormData) (id : Nat) : Entry :=
  let status := deriveStatus f.fields
  let planAt := if f.planToWatch then numOr f.planAt (some now) else none
  { id := id
    title := f.title
    startDate := f.startDate
    endDate := f.endDate
    rating := f.rating
    notes := f.notes
    genres := f.genres
    status := status
    planToWatch := f.planToWatch
    planAt := planAt
    isWatched := status == "finished" }

/-- `handleSave`'s state update: replace the entry with `editingId`, or
prepend a fresh entry with `id = Date.now()`. -/
def handleSave (now : Nat) (editingId : Option Nat) (f : FormData)
    (items : List Entry) : List Entry :=
  match editingId with
  | some eid => items.map fun item => if item.id = eid then mkEntry now f eid else item
  | none => mkEntry now f now :: items

/-- `deleteItem` (lines 134–137): keep every entry whose id differs. -/
def deleteItem (id : Nat) (items : List Entry) : List Entry :=
  items.filter fun item => item.id ≠ id

/-- The per-entry transform inside `handleStart` (lines 189–195). -/
def startStep (today : String) (item : Entry) : Entry :=
  { item with
    startDate := strOr item.startDate today
    status := "watching"
    isWatched := false
    endDate := ""
    planToWatch := false
    planAt := none }

/-- `handleStart`'s state update. -/
def handleStart (today : String) (id : Nat) (items : List Entry) : List Entry :=
  items.map fun item => if item.id = id then startStep today item else item

/-- The per-entry transform inside `handleFinish` (lines 197–203). -/
def finishStep (today : String) (item : Entry) : Entry :=
  { item with
    startDate := strOr item.startDate today
    endDate := today
    status := "finished"
    isWatched := true
    planToWatch := false
    planAt := none }

/-- `handleFinish`'s state update. -/
def handleFinish (today : String) (id : Nat) (items : List Entry) : List Entry :=
  items.map fun item => if item.id = id then finishStep today item else item

/-- The per-entry transform inside `handlePlanToggle` (lines 205–218):
set/flip the plan flag, stamp/clear `planAt`, then re-derive status. -/
def planStep (now : Nat) (forceOn : Option Bool) (item : Entry) : Entry :=
  let nextPlan := forceOn.getD (!item.planToWatch)
  let withPlan := { item with
    planToWatch := nextPlan
    planAt := if nextPlan then numOr item.planAt (some now) else none }
  let status := deriveStatus withPlan.fields
  { withPlan with status := status, isWatched := status == "finished" }

/-- `handlePlanToggle`'s state update. -/
def handlePlanToggle (now : Nat) (id : Nat) (forceOn : Option Bool)
    (items : List Entry) : List Entry :=
  items.map fun item => if item.id = id then planStep now forceOn item else item

/-- The form's plan-toggle button (lines 467–476): flipping it on clears both
date fields; flipping it off restores nothing. -/
def formPlanToggle (now : Nat) (prev : FormData) : FormData :=
  let nextPlan := !prev.planToWatch
  { prev with
    planToWatch := nextPlan
    planAt := if nextPlan then numOr prev.planAt (some now) else none
    startDate := if nextPlan then "" else prev.startDate
    endDate := if nextPlan then "" else prev.endDate }

/-- The form's start-date input `onChange` (line 494): sets the date and
clears the plan flag. -/
def setStartDateField (f : FormData) (v : String) : FormData :=
  { f with startDate := v, planToWatch := false }

/-- The form's end-date input `onChange` (line 498): sets the date and
clears the plan flag. -/
def setEndDateField (f : FormData) (v : String) : FormData :=
  { f with endDate := v, planToWatch := false }

/-- The `items` `useState` initializer (lines 77–80):
`saved ? JSON.parse(saved).map(normalizeItem) : []`.
`saved = none` is `localStorage.getItem` returning `null`; otherwise the
stored string either parses to a list of records (`.ok raw`) or
`JSON.parse` throws (`.error msg`). The source has no `try/catch`, so a
parse exception propagates out of the initializer (the `.error` branch)
and the component render crashes. -/
def loadItems (now : Nat) (saved : Option (Except String (List Entry))) :
    Except String (List Entry) :=
  match saved with
  | none => .ok []
  | some (.error msg) => .error msg
  | some (.ok raw) => .ok (raw.map (normalizeItem now))

/-- JS `Math.round` on exact (rational) arguments: round half toward `+∞`. -/
def jsRound (q : ℚ) : ℤ := ⌊q + 1 / 2⌋

/-- The aggregate statistics record (lines 178–184). -/
structure Stats where
  total : Nat
  watched : Nat
  percent : ℤ
  started : Nat
  planned : Nat
deriving Repr, DecidableEq

/-- `stats` (lines 178–184), with JS float arithmetic read as exact rational
arithmetic: `items.length ? Math.round(finished/length*100) : 0`. -/
def statsOf (items : List Entry) : Stats :=
  let watched := (items.filter fun i => i.status == "finished").length
  { total := items.length
    watched := watched
    percent :=
      if items.length = 0 then 0
      else jsRound ((watched : ℚ) / (items.length : ℚ) * 100)
    started := (items.filter fun i => i.status == "watching").length
    planned := (items.filter fun i => i.status == "planned").length }

/-- `needle.isEmpty`-style substring test: does `pat` occur as a contiguous
run at the head of `hay`? Models the per-position check of `String.includes`. -/
def leadMatch : List Char → List Char → Bool
  | _, [] => true
  | [], _ :: _ => false
  | h :: hs, p :: ps => h == p && leadMatch hs ps

/-- Occurrence of `pat` anywhere in `hay`; together with `leadMatch` this
models JS `hay.includes(pat)` on the underlying character lists. -/
def subSearch (pat : List Char) : List Char → Bool
  | [] => leadMatch [] pat
  | h :: t => leadMatch (h :: t) pat || subSearch pat t

/-- JS `s.includes(sub)`. -/
def jsIncludes (s sub : String) : Bool := subSearch sub.toList s.toList

/-- The filter predicate of `filteredItems` (lines 147–160): case-insensitive
title search, exact status match (or `all`), genre membership (or `all`). -/
def matchesFilters (filter genreFilter search : String) (item : Entry) : Bool :=
  let matchesSearch := jsIncludes item.title.toLower search.toLower
  let matchesStatus :=
    if filter == "all" then true
    else if filter == "finished" then item.status == "finished"
    else if filter == "watching" then item.status == "watching"
    else if filter == "planned" then item.status == "planned"
    else item.status == "queued"
  let matchesGenre :=
    if genreFilter == "all" then true else item.genres.contains genreFilter
  matchesSearch && matchesStatus && matchesGenre

/-- The bucket helper of the `plan` sort branch (line 165):
planned → 0, queued → 1, everything else → 2. -/
def bucket (item : Entry) : Nat :=
  if item.status == "planned" then 0
  else if item.status == "queued" then 1
  else 2

/-- `planAt || 0` as a number (both `null` and `0` read as `0`). -/
def planAtVal (e : Entry) : ℤ :=
  match e.planAt with
  | some t => (t : ℤ)
  | none => 0

/-- Numeric value of `new Date(s)` for the app's date strings: `""` maps to
`0` (from the `|| 0` fallback, i.e. the epoch) and an ISO `YYYY-MM-DD`
string maps to its digits read as one number. This is order-isomorphic to
`new Date(s).getTime()` on `""` and ISO dates from 1970 on, which is all
the comparator consumes. -/
def dateNum (s : String) : Nat :=
  (s.toList.filter Char.isDigit).foldl (fun acc c => acc * 10 + (c.toNat - 48)) 0

/-- The comparator key `new Date(e.endDate || e.startDate || 0)` (lines 170,
172–173). -/
def dateKey (e : Entry) : ℤ := (dateNum (strOr e.endDate e.startDate) : ℤ)

/-- The `plan` branch of the sort comparator (lines 164–171): bucket order
first; within the planned/queued buckets most-recent `planAt` first; within
the remaining bucket end/start date ascending. -/
def planCompare (a b : Entry) : ℤ :=
  let bA := bucket a
  let bB := bucket b
  if bA ≠ bB then (bA : ℤ) - (bB : ℤ)
  else if bA < 2 then planAtVal b - planAtVal a
  else dateKey a - dateKey b

/-- The order induced by the `plan` comparator: `a` may come before `b`
exactly when the comparator does not require the opposite order. -/
def planLE (a b : Entry) : Bool := planCompare a b ≤ 0

/-- `filteredItems` (lines 145–176) with `sortBy = 'plan'`: filter, then sort
by the `plan` comparator. `Array.prototype.sort` with this consistent
comparator is modelled by the stable `List.mergeSort` on `planLE`. -/
def filteredItemsPlan (filter genreFilter search : String)
    (items : List Entry) : List Entry :=
  (items.filter (matchesFilters filter genreFilter search)).mergeSort planLE

/-- App-level consistency of an entry's derived fields: `status` agrees with
`deriveStatus` of its own fields and `isWatched` marks exactly the finished
status. -/
def consistentB (e : Entry) : Bool :=
  (e.status == deriveStatus e.fields) && (e.isWatched == (e.status == "finished"))

/-- App-reachable shape: consistent derived fields, plus `planAt` is a
positive timestamp exactly when the entry is planned-to-watch (it is always
stamped from `Date.now()`, which is positive). -/
def reachableB (e : Entry) : Bool :=
  consistentB e &&
    (match e.planAt with
     | some t => e.planToWatch && decide (0 < t)
     | none => !e.planToWatch)

/-! ## Small helper lemmas -/

lemma startStep_keeps_id (today : String) (x : Entry) :
    (startStep today x).id = x.id := rfl

lemma finishStep_keeps_id (today : String) (x : Entry) :
    (finishStep today x).id = x.id := rfl

lemma planStep_keeps_id (now : Nat) (forceOn : Option Bool) (x : Entry) :
    (planStep now forceOn x).id = x.id := rfl

lemma strOr_absorb (s t : String) : strOr (strOr s t) t = strOr s t := by
  simp only [strOr]
  split_ifs <;> simp_all

/-- A sample entry with no dates and no plan flag. -/
def sampleQueued : Entry :=
  ⟨3, "Dune", "", "", 3, "", ["Sci-Fi"], "queued", false, none, false⟩

/-- A sample finished entry. -/
def sampleFinished : Entry :=
  ⟨4, "Heat", "2024-01-01", "2024-02-01", 5, "great", [], "finished", false, none, true⟩

/-! ## C1 — the `deriveStatus` rule table -/

/-- C1: for every combination of `planToWatch`, `startDate` and `endDate`,
`deriveStatus` returns `planned` when `planToWatch` is true; otherwise
`finished` when `endDate` is non-empty; otherwise `watching` when
`startDate` is non-empty; otherwise `queued`. -/
theorem deriveStatus_rule_table (p : Bool) (s e : String) :
    (p = true → deriveStatus ⟨p, s, e⟩ = "planned") ∧
    (p = false → e ≠ "" → deriveStatus ⟨p, s, e⟩ = "finished") ∧
    (p = false → e = "" → s ≠ "" → deriveStatus ⟨p, s, e⟩ = "watching") ∧
    (p = false → e = "" → s = "" → deriveStatus ⟨p, s, e⟩ = "queued") := by
  refine ⟨?_, ?_, ?_, ?_⟩ <;> intros <;> simp_all [deriveStatus]

/-- Witness for `deriveStatus_rule_table` at concrete inputs. -/
theorem deriveStatus_rule_table_witness :
    deriveStatus ⟨false, "", "2024-05-01"⟩ = "finished" :=
  (deriveStatus_rule_table false "" "2024-05-01").2.1 rfl (by decide)

/-! ## C6 — the Start action -/

lemma startStep_idem (today : String) (x : Entry) :
    startStep today (startStep today x) = startStep today x := by
  cases x
  simp [startStep, strOr_absorb]

lemma handleStart_idem (today : String) (id : Nat) (items : List Entry) :
    handleStart today id (handleStart today id items) =
      handleStart today id items := by
  unfold handleStart
  rw [List.map_map]
  apply List.map_congr_left
  intro x _
  by_cases h : x.id = id
  · simp [Function.comp, h, startStep_keeps_id, startStep_idem]
  · simp [Function.comp, h]

/-- C6: Start sets `startDate` to today only when it was unset and never
overwrites an existing one, clears `endDate`, clears the plan flag and
timestamp, sets status to `watching`, and applying Start twice with the same
today yields the same list as applying it once. -/
theorem start_action_spec (today : String) (id : Nat) (items : List Entry)
    (item : Entry) :
    (item.startDate = "" → (startStep today item).startDate = today) ∧
    (item.startDate ≠ "" → (startStep today item).startDate = item.startDate) ∧
    (startStep today item).endDate = "" ∧
    (startStep today item).planToWatch = false ∧
    (startStep today item).planAt = none ∧
    (startStep today item).status = "watching" ∧
    handleStart today id (handleStart today id items) =
      handleStart today id items := by
  refine ⟨?_, ?_, rfl, rfl, rfl, rfl, handleStart_idem today id items⟩ <;>
    intro h <;> simp [startStep, strOr, h]

/-- Witness for `start_action_spec` at a concrete entry and list. -/
theorem start_action_spec_witness :
    (startStep "2026-10-11" sampleQueued).startDate = "2026-10-11" ∧
    handleStart "2026-10-11" 3 (handleStart "2026-10-11" 3 [sampleQueued]) =
      handleStart "2026-10-11" 3 [sampleQueued] :=
  ⟨(start_action_spec "2026-10-11" 3 [sampleQueued] sampleQueued).1 rfl,
   (start_action_spec "2026-10-11" 3 [sampleQueued] sampleQueued).2.2.2.2.2.2⟩

/-! ## C7 — the Finish action -/

/-- C7: Finish always yields status `finished` and `isWatched` true, sets
`endDate` to today, sets `startDate` to today only if it was unset, and
clears the plan flag and timestamp. -/
theorem finish_action_spec (today : String) (item : Entry) :
    (finishStep today item).status = "finished" ∧
    (finishStep today item).isWatched = true ∧
    (finishStep today item).endDate = today ∧
    (item.startDate = "" → (finishStep today item).startDate = today) ∧
    (item.startDate ≠ "" → (finishStep today item).startDate = item.startDate) ∧
    (finishStep today item).planToWatch = false ∧
    (finishStep today item).planAt = none := by
  refine ⟨rfl, rfl, rfl, ?_, ?_, rfl, rfl⟩ <;>
    intro h <;> simp [finishStep, strOr, h]

/-- Witness for `finish_action_spec` at a concrete entry. -/
theorem finish_action_spec_witness :
    (finishStep "2026-10-11" sampleQueued).status = "finished" ∧
    (finishStep "2026-10-11" sampleQueued).startDate = "2026-10-11" :=
  ⟨(finish_action_spec "2026-10-11" sampleQueued).1,
   (finish_action_spec "2026-10-11" sampleQueued).2.2.2.1 rfl⟩

/-! ## C10 — frame property of the id-targeted operations -/

lemma filter_ne_map_targeted (f : Entry → Entry) (hf : ∀ x, (f x).id = x.id)
    (id : Nat) (items : List Entry) :
    ((items.map fun x => if x.id = id then f x else x).filter
      fun e => e.id ≠ id) = items.filter fun e => e.id ≠ id := by
  induction items with
  | nil => rfl
  | cons h t ih =>
    by_cases hid : h.id = id
    · simp [hid, hf]
      simpa using ih
    · simp [hid]
      simpa using ih

/-- C10: `deleteItem`, `handleStart`, `handleFinish` and `handlePlanToggle`
affect only the entry whose id matches: the sublist of entries with a
different id is unchanged — same fields, same relative order — and delete
keeps exactly the other entries. -/
theorem operations_frame (id : Nat) (today : String) (now : Nat)
    (forceOn : Option Bool) (items : List Entry) :
    deleteItem id items = items.filter (fun e => e.id ≠ id) ∧
    (handleStart today id items).filter (fun e => e.id ≠ id) =
      items.filter (fun e => e.id ≠ id) ∧
    (handleFinish today id items).filter (fun e => e.id ≠ id) =
      items.filter (fun e => e.id ≠ id) ∧
    (handlePlanToggle now id forceOn items).filter (fun e => e.id ≠ id) =
      items.filter (fun e => e.id ≠ id) := by
  unfold deleteItem handleStart handleFinish handlePlanToggle
  exact ⟨rfl,
    filter_ne_map_targeted (startStep today) (startStep_keeps_id today) id items,
    filter_ne_map_targeted (finishStep today) (finishStep_keeps_id today) id items,
    filter_ne_map_targeted (planStep now forceOn) (planStep_keeps_id now forceOn) id items⟩

/-! ## C3 — malformed persisted JSON at startup -/

/-- C3 (refuted — code bug): with a malformed persisted blob the `useState`
initializer propagates the `JSON.parse` exception instead of falling back to
the empty list: `loadItems` returns the error and never `ok []`. -/
theorem load_malformed_propagates :
    loadItems 0 (some (.error "SyntaxError: Unexpected end of JSON input")) =
      .error "SyntaxError: Unexpected end of JSON input" ∧
    ∀ (now : Nat) (msg : String),
      loadItems now (some (.error msg)) = .error msg :=
  ⟨rfl, fun _ _ => rfl⟩

/-! ## C8 — aggregate statistics -/

/-- C8: the statistics are a pure function of the entry list — total is the
length, watched/started/planned count the finished/watching/planned entries,
and percent is the finished count over total, times 100, rounded, with 0 for
the empty list; concretely, no entries give 0% and one finished out of two
gives 50%. -/
theorem stats_spec (items : List Entry) :
    (statsOf items).total = items.length ∧
    (statsOf items).watched =
      (items.filter fun i => i.status == "finished").length ∧
    (statsOf items).started =
      (items.filter fun i => i.status == "watching").length ∧
    (statsOf items).planned =
      (items.filter fun i => i.status == "planned").length ∧
    (statsOf items).percent =
      (if items.length = 0 then 0
       else jsRound
         (((items.filter fun i => i.status == "finished").length : ℚ) /
           (items.length : ℚ) * 100)) ∧
    (statsOf ([] : List Entry)).percent = 0 ∧
    (statsOf [sampleFinished, sampleQueued]).percent = 50 := by
  refine ⟨rfl, rfl, rfl, rfl, rfl, rfl, ?_⟩
  have hlen : (List.filter (fun i => i.status == "finished")
      [sampleFinished, sampleQueued]).length = 1 := by decide
  simp only [statsOf, hlen]
  norm_num [jsRound]

/-! ## C2 — status as a derived field -/

/-- A legacy stored record the current save path never writes: status
`queued` alongside a non-empty `endDate`. -/
def legacyRecord : Entry :=
  ⟨2, "Old Movie", "", "2023-05-01", 3, "", [], "queued", false, none, false⟩

/-- C2 (counterexample): normalization at load does not re-derive status
from {planToWatch, startDate, endDate} — on `legacyRecord` it keeps the
stored `queued` although `deriveStatus` of the resulting fields is
`finished`. -/
theorem normalize_keeps_stale_status :
    (normalizeItem 0 legacyRecord).status = "queued" ∧
    deriveStatus (normalizeItem 0 legacyRecord).fields = "finished" ∧
    consistentB (normalizeItem 0 legacyRecord) = false := by decide

lemma normalizeItem_preserves_consistentB (now : Nat) (e : Entry)
    (h : consistentB e = true) : consistentB (normalizeItem now e) = true := by
  rcases e with ⟨id, title, sD, eD, rat, nts, gen, st, ptw, pAt, iw⟩
  simp only [consistentB, Entry.fields, deriveStatus, normalizeItem, strOr,
    numOr, Bool.and_eq_true, beq_iff_eq] at h ⊢
  obtain ⟨h1, h2⟩ := h
  by_cases hp : ptw <;> by_cases he : eD = "" <;> by_cases hs : sD = "" <;>
    simp_all

/-- C2 (amended): save, start, finish (the latter two given the nonempty
`todayISO()` string) and plan-toggle each produce an entry whose `status`
equals `deriveStatus` of its own fields and whose `isWatched` is exactly
`status == finished`; `normalizeItem` preserves this consistency for
entries that already satisfy it (every record the app itself writes), but
does not re-establish it for arbitrary stored records. -/
theorem status_invariant_operations (now : Nat) (today : String)
    (f : FormData) (id : Nat) (forceOn : Option Bool) (e : Entry) :
    consistentB (mkEntry now f id) = true ∧
    (today ≠ "" → consistentB (startStep today e) = true) ∧
    (today ≠ "" → consistentB (finishStep today e) = true) ∧
    consistentB (planStep now forceOn e) = true ∧
    (consistentB e = true → consistentB (normalizeItem now e) = true) := by
  refine ⟨?_, ?_, ?_, ?_, normalizeItem_preserves_consistentB now e⟩
  · simp [consistentB, mkEntry, Entry.fields, FormData.fields]
  · intro h
    by_cases hs : e.startDate = "" <;>
      simp [consistentB, startStep, Entry.fields, deriveStatus, strOr, hs, h]
  · intro h
    simp [consistentB, finishStep, Entry.fields, deriveStatus, h]
  · simp [consistentB, planStep, Entry.fields]

/-- A sample fresh form state. -/
def sampleForm : FormData :=
  ⟨"Arrival", "", "", 4, "", "queued", [], false, none⟩

/-- Witness for `status_invariant_operations` at concrete inputs. -/
theorem status_invariant_operations_witness :
    (("2026-10-11" : String) == "") = false ∧ consistentB sampleQueued = true ∧
    consistentB (startStep "2026-10-11" sampleQueued) = true ∧
    consistentB (normalizeItem 9 sampleQueued) = true := by
  refine ⟨by decide, by decide, ?_, ?_⟩
  · exact (status_invariant_operations 9 "2026-10-11" sampleForm 3 none
      sampleQueued).2.1 (by decide)
  · exact (status_invariant_operations 9 "2026-10-11" sampleForm 3 none
      sampleQueued).2.2.2.2 (by decide)

/-! ## C4 — mutual exclusivity of plan flag and dates -/

/-- An entry with a start date and no plan flag. -/
def datedEntry : Entry :=
  ⟨1, "Oppenheimer", "2024-01-01", "", 4, "", [], "watching", false, none, false⟩

/-- C4 (counterexample): enabling plan-to-watch through the card-level plan
toggle does not clear the dates — on `datedEntry` the toggled entry keeps
its non-empty `startDate`. -/
theorem plan_toggle_keeps_dates :
    (handlePlanToggle 5 1 (some true) [datedEntry]).map Entry.planToWatch =
      [true] ∧
    (handlePlanToggle 5 1 (some true) [datedEntry]).map Entry.startDate =
      ["2024-01-01"] ∧
    (("2024-01-01" : String) == "") = false := by decide

/-- C4 (amended): mutual exclusivity holds at the form level — the form's
plan toggle clears both date fields when enabling, and editing either date
field clears the plan flag; the card-level `handlePlanToggle`, by contrast,
leaves both dates untouched. -/
theorem form_plan_date_exclusive (now : Nat) (prev f : FormData) (v : String)
    (e : Entry) :
    (prev.planToWatch = false →
      (formPlanToggle now prev).planToWatch = true ∧
      (formPlanToggle now prev).startDate = "" ∧
      (formPlanToggle now prev).endDate = "") ∧
    (setStartDateField f v).planToWatch = false ∧
    (setEndDateField f v).planToWatch = false ∧
    (planStep now (some true) e).startDate = e.startDate ∧
    (planStep now (some true) e).endDate = e.endDate := by
  refine ⟨?_, rfl, rfl, rfl, rfl⟩
  intro h
  simp [formPlanToggle, h]

/-- A form state carrying a start date, plan flag off. -/
def datedForm : FormData :=
  ⟨"Oppenheimer", "2024-01-01", "", 4, "", "watching", [], false, none⟩

/-- Witness for `form_plan_date_exclusive` at a concrete form state. -/
theorem form_plan_date_exclusive_witness :
    datedForm.planToWatch = false ∧
    (formPlanToggle 7 datedForm).startDate = "" :=
  ⟨rfl,
   ((form_plan_date_exclusive 7 datedForm datedForm "" sampleQueued).1 rfl).2.1⟩

/-! ## C5 — storage round trip -/

lemma normalizeItem_id_of_reachable (now : Nat) (e : Entry)
    (h : reachableB e = true) : normalizeItem now e = e := by
  rcases e with ⟨id, title, sD, eD, rat, nts, gen, st, ptw, pAt, iw⟩
  rcases pAt with _ | t <;>
    by_cases hp : ptw <;> by_cases he : eD = "" <;> by_cases hs : sD = "" <;>
      simp_all [reachableB, consistentB, Entry.fields, deriveStatus,
        normalizeItem, strOr, numOr, Nat.pos_iff_ne_zero]

/-- C5: persisting the list and reloading — serialize, parse back, apply
`normalizeItem` to each record — is the identity on app-reachable entries:
every semantic field is unchanged and each status is the correctly derived
one. `JSON.stringify`/`JSON.parse` round-trips the plain records
themselves, so the reload step is exactly `map (normalizeItem now)`. -/
theorem storage_round_trip (now : Nat) (l : List Entry)
    (h : ∀ e ∈ l, reachableB e = true) :
    l.map (normalizeItem now) = l ∧
    ∀ e ∈ l, e.status = deriveStatus e.fields := by
  constructor
  · calc l.map (normalizeItem now)
        = l.map id :=
          List.map_congr_left fun e he =>
            normalizeItem_id_of_reachable now e (h e he)
      _ = l := l.map_id
  · intro e he
    have hc := h e he
    simp only [reachableB, consistentB, Bool.and_eq_true, beq_iff_eq] at hc
    exact hc.1.1

/-- Witness for `storage_round_trip` at a concrete reachable list. -/
theorem storage_round_trip_witness :
    reachableB sampleFinished = true ∧
    [sampleFinished].map (normalizeItem 11) = [sampleFinished] :=
  ⟨by decide, (storage_round_trip 11 [sampleFinished] (by decide)).1⟩

/-! ## C9 — the `plan` sort projection -/

/-- The ordering C9 asserts for the `plan` sort: buckets ascending (planned
before queued before the rest); inside the planned bucket most recent
`planAt` first; inside the last bucket end/start date ascending. -/
def planOrder (a b : Entry) : Prop :=
  bucket a ≤ bucket b ∧
    (bucket a = bucket b →
      (bucket a = 0 → planAtVal b ≤ planAtVal a) ∧
      (bucket a = 2 → dateKey a ≤ dateKey b))

lemma planCompare_le_iff (a b : Entry) :
    planCompare a b ≤ 0 ↔
      bucket a < bucket b ∨
      (bucket a = bucket b ∧ bucket a < 2 ∧ planAtVal b ≤ planAtVal a) ∨
      (bucket a = bucket b ∧ 2 ≤ bucket a ∧ dateKey a ≤ dateKey b) := by
  simp only [planCompare]
  split_ifs with h1 h2 <;> constructor <;> intro h <;> omega

lemma planLE_trans (a b c : Entry) :
    planLE a b = true → planLE b c = true → planLE a c = true := by
  simp only [planLE, decide_eq_true_eq, planCompare_le_iff]
  intro hab hbc
  omega

lemma planLE_total (a b : Entry) : (planLE a b || planLE b a) = true := by
  simp only [planLE, Bool.or_eq_true, decide_eq_true_eq, planCompare_le_iff]
  omega

lemma planLE_planOrder (a b : Entry) (h : planLE a b = true) : planOrder a b := by
  simp only [planLE, decide_eq_true_eq, planCompare_le_iff] at h
  unfold planOrder
  omega

/-- C9: under the `plan` sort key the projection keeps exactly the filtered
entries and orders them with every planned entry first (most recent `planAt`
first), then every queued entry, then the remaining entries ascending by end
date falling back to start date. -/
theorem plan_sort_spec (filter genreFilter search : String)
    (items : List Entry) :
    List.Perm (filteredItemsPlan filter genreFilter search items)
      (items.filter (matchesFilters filter genreFilter search)) ∧
    (filteredItemsPlan filter genreFilter search items).Pairwise planOrder := by
  unfold filteredItemsPlan
  constructor
  · exact List.mergeSort_perm _ _
  · exact List.Pairwise.imp (fun hab => planLE_planOrder _ _ hab)
      (List.sorted_mergeSort planLE_trans planLE_total _)

end CineLog
